import Mathlib

/-!
Verification development for the audio mixing core of a headless speaker
bot (`discord_audio_bot.py`).  The embedding models the thread-safe ring
buffer `AudioBuffer` (chunk list plus tracked occupancy), the sounddevice
mixer callback `audio_callback` (volume scaling, ducking, mixing, limiting),
the volume / pause / resume command handlers, one iteration of the PCM
streaming loop of `play_youtube` (skip teardown included), and the queue
draining loop `playback_loop`.  Samples are modelled as exact rationals;
a frame is one sample per channel (two channels).
-/

/-- One audio sample (the source uses 32-bit floats; modelled exactly). -/
abbrev Sample := ℚ

/-- One frame: one sample per channel, `CHANNELS = 2`. -/
abbrev Frame := Sample × Sample

/-- A zero-valued frame, used to pad short reads. -/
def silence : Frame := (0, 0)

/-- `SAMPLE_RATE = 48000` from the audio configuration block. -/
def SAMPLE_RATE : Nat := 48000

/-- `CHANNELS = 2` from the audio configuration block. -/
def CHANNELS : Nat := 2

/-- `BLOCKSIZE = 4096` from the audio configuration block. -/
def BLOCKSIZE : Nat := 4096

/-- `AudioBuffer`: a list of chunks (oldest first) plus the tracked
`current_size` and the capacity `maxsize`, mirroring the fields set in
`AudioBuffer.__init__`. -/
structure AudioBuffer where
  buffer : List (List Frame)
  maxsize : Nat
  current_size : Nat

/-- The `while self.buffer and self.current_size + data_len > self.maxsize`
loop inside `AudioBuffer.write`: pop the oldest chunk and decrease
`current_size` until the new block fits or the buffer is empty. -/
def AudioBuffer.dropOldestLoop (data_len maxsize : Nat) :
    List (List Frame) → Nat → List (List Frame) × Nat
  | [], cur => ([], cur)
  | oldest :: rest, cur =>
    if maxsize < cur + data_len then
      AudioBuffer.dropOldestLoop data_len maxsize rest (cur - oldest.length)
    else (oldest :: rest, cur)

/-- `AudioBuffer.write`: no-op on an empty block; otherwise drop oldest
chunks while the new block would overflow `maxsize`, then append a copy of
the block and grow `current_size`. -/
def AudioBuffer.write (b : AudioBuffer) (data : List Frame) : AudioBuffer :=
  if data.length = 0 then b
  else
    let dropped :=
      if b.maxsize < b.current_size + data.length then
        AudioBuffer.dropOldestLoop data.length b.maxsize b.buffer b.current_size
      else (b.buffer, b.current_size)
    { b with buffer := dropped.1 ++ [data], current_size := dropped.2 + data.length }

/-- The `while read_offset < frames and self.buffer` loop inside
`AudioBuffer.read`: consume whole chunks while they fit in the remaining
request, otherwise split the front chunk.  Returns the frames copied out
(in order) and the remaining chunk list. -/
def AudioBuffer.readLoop : Nat → List (List Frame) → List Frame × List (List Frame)
  | _, [] => ([], [])
  | remaining, chunk :: rest =>
    if remaining = 0 then ([], chunk :: rest)
    else if chunk.length ≤ remaining then
      let next := AudioBuffer.readLoop (remaining - chunk.length) rest
      (chunk ++ next.1, next.2)
    else
      (chunk.take remaining, chunk.drop remaining :: rest)

/-- `AudioBuffer.read`: silence when the buffer is empty, otherwise the
consumed frames followed by zero padding up to exactly `frames`;
`current_size` decreases by the number of frames consumed. -/
def AudioBuffer.read (b : AudioBuffer) (frames : Nat) : List Frame × AudioBuffer :=
  if b.buffer = [] ∨ b.current_size = 0 then
    (List.replicate frames silence, b)
  else
    let r := AudioBuffer.readLoop frames b.buffer
    (r.1 ++ List.replicate (frames - r.1.length) silence,
     { b with buffer := r.2, current_size := b.current_size - r.1.length })

/-- `AudioBuffer.clear`: discard all chunks and reset `current_size`. -/
def AudioBuffer.clear (b : AudioBuffer) : AudioBuffer :=
  { b with buffer := [], current_size := 0 }

/-- `AudioBuffer.available_frames`: the tracked occupancy. -/
def AudioBuffer.available_frames (b : AudioBuffer) : Nat := b.current_size

/-- A freshly constructed buffer of the given capacity. -/
def AudioBuffer.mk_empty (maxsize : Nat) : AudioBuffer := ⟨[], maxsize, 0⟩

/-- Default capacity `SAMPLE_RATE * 10` from `AudioBuffer.__init__`. -/
def defaultMaxsize : Nat := SAMPLE_RATE * 10

/-- Well-formedness: the tracked `current_size` equals the number of frames
actually stored (the invariant the Python code maintains implicitly). -/
def AudioBuffer.WF (b : AudioBuffer) : Prop :=
  b.current_size = b.buffer.flatten.length

instance (b : AudioBuffer) : Decidable b.WF := by
  unfold AudioBuffer.WF; infer_instance

/-- Fold a sequence of writes, oldest first. -/
def AudioBuffer.writeSeq (b : AudioBuffer) (ws : List (List Frame)) : AudioBuffer :=
  ws.foldl AudioBuffer.write b

/-- Scale both channels of a frame (`music *= state["volume"]`, elementwise). -/
def scaleF (v : ℚ) (f : Frame) : Frame := (v * f.1, v * f.2)

/-- Add two frames channel-wise (`mixed = music + tts`). -/
def addF (f g : Frame) : Frame := (f.1 + g.1, f.2 + g.2)

/-- `np.clip(x, -0.95, 0.95)` on one sample; `0.95 = 19/20`. -/
def clipS (x : ℚ) : ℚ := min (max x (-(19/20))) (19/20)

/-- Clip both channels of a frame. -/
def clipF (f : Frame) : Frame := (clipS f.1, clipS f.2)

/-- One frame trips the ducking test `np.abs(tts) > 0.001` when either
channel exceeds the threshold `0.001 = 1/1000` in absolute value. -/
def loudF (f : Frame) : Bool :=
  decide ((1/1000 : ℚ) < |f.1|) || decide ((1/1000 : ℚ) < |f.2|)

/-- The mixer-visible state: the two ring buffers and the volume multiplier
(`state["music_buffer"]`, `state["tts_buffer"]`, `state["volume"]`). -/
structure MixState where
  music_buffer : AudioBuffer
  tts_buffer : AudioBuffer
  volume : ℚ

/-- `audio_callback`: read `frames` frames from each buffer, scale music by
the volume, duck music by `0.2 = 1/5` when any announcement sample exceeds
the threshold, sum, clip to `[-0.95, 0.95]`, and return the block together
with the updated buffers. -/
def audio_callback (s : MixState) (frames : Nat) : List Frame × MixState :=
  let mr := s.music_buffer.read frames
  let tr := s.tts_buffer.read frames
  let music := mr.1.map (scaleF s.volume)
  let tts_active := tr.1.any loudF
  let music2 := if tts_active then music.map (scaleF (1/5)) else music
  let mixed := List.zipWith addF music2 tr.1
  (mixed.map clipF, { s with music_buffer := mr.2, tts_buffer := tr.2 })

/-- The `/volume` command handler: reject levels outside `0..200` leaving
the multiplier unchanged, otherwise set `state["volume"] = level / 100.0`.
The boolean reports whether the command was accepted. -/
def volumeCommand (level : Int) (current : ℚ) : ℚ × Bool :=
  if level < 0 ∨ 200 < level then (current, false)
  else ((level : ℚ) / 100, true)

/-- The control-path state the `/pause` and `/resume` handlers touch:
`state["paused"]` and `state["current_track"]`. -/
structure ControlState where
  paused : Bool
  current_track : Option String

/-- Python truthiness of `state["current_track"]` (None and the empty
string are falsy). -/
def truthyTrack : Option String → Bool
  | none => false
  | some t => !t.isEmpty

/-- The `/pause` handler: set the pause flag when a track is playing; the
boolean reports whether it answered with the paused confirmation. -/
def pauseCommand (s : ControlState) : ControlState × Bool :=
  if truthyTrack s.current_track then ({ s with paused := true }, true)
  else (s, false)

/-- The `/resume` handler: clear the pause flag when paused, otherwise
leave the state untouched. -/
def resumeCommand (s : ControlState) : ControlState × Bool :=
  if s.paused then ({ s with paused := false }, true)
  else (s, false)

/-- The teardown side effects of the skip branch of `play_youtube`, in the
order the code performs them. -/
inductive TeardownEvent
  | cancelPipeTask
  | terminateFfmpeg
  | terminateYtdlp
  | clearMusicBuffer
deriving DecidableEq

/-- How one iteration of the PCM streaming loop of `play_youtube` ends. -/
inductive LoopOutcome
  | skipped
  | pausedWait
  | backpressureWait
  | streamEnded
  | wroteChunk
deriving DecidableEq

/-- The session-visible state of one `play_youtube` run: the skip and pause
flags and the music buffer. -/
structure SessionState where
  skip : Bool
  paused : Bool
  music_buffer : AudioBuffer

/-- One iteration of the `while True` streaming loop of `play_youtube`,
given the PCM chunk the decoder would deliver: check skip first (cancel the
pipe task, terminate ffmpeg then yt-dlp, clear the music buffer, break),
then the pause poll, then the backpressure poll, then end of stream, then
write the chunk.  Returns the teardown events emitted, the new state, and
how the iteration ended. -/
def playLoopBody (s : SessionState) (chunk : List Frame) :
    List TeardownEvent × SessionState × LoopOutcome :=
  if s.skip then
    ([TeardownEvent.cancelPipeTask, TeardownEvent.terminateFfmpeg,
      TeardownEvent.terminateYtdlp, TeardownEvent.clearMusicBuffer],
     ({ s with skip := false, music_buffer := s.music_buffer.clear },
      LoopOutcome.skipped))
  else if s.paused then ([], (s, LoopOutcome.pausedWait))
  else if SAMPLE_RATE * 2 < s.music_buffer.available_frames then
    ([], (s, LoopOutcome.backpressureWait))
  else if chunk.isEmpty then ([], (s, LoopOutcome.streamEnded))
  else ([], ({ s with music_buffer := s.music_buffer.write chunk },
             LoopOutcome.wroteChunk))

/-- How the body of `play_youtube` ends before its exception handlers run:
normally with a boolean, or raising a cancellation, or raising some other
exception (spawn failure, sustained read error). -/
inductive PyError
  | cancelled
  | exn
deriving DecidableEq

instance : DecidableEq (Except PyError Bool) := fun a b =>
  match a, b with
  | Except.ok x, Except.ok y =>
    if h : x = y then isTrue (by rw [h])
    else isFalse (fun hh => h (Except.ok.inj hh))
  | Except.error x, Except.error y =>
    if h : x = y then isTrue (by rw [h])
    else isFalse (fun hh => h (Except.error.inj hh))
  | Except.ok _, Except.error _ => isFalse (fun hh => Except.noConfusion hh)
  | Except.error _, Except.ok _ => isFalse (fun hh => Except.noConfusion hh)

/-- The exception handling of `play_youtube`: cancellation is re-raised
after cleanup, any other exception is logged and turned into `False`. -/
def play_youtube_result : Except PyError Bool → Except PyError Bool
  | Except.ok b => Except.ok b
  | Except.error PyError.cancelled => Except.error PyError.cancelled
  | Except.error PyError.exn => Except.ok false

/-- The `playback_loop` drained over a queue of requests, each paired with
how its `play_youtube` body would end.  For each request the loop dequeues
it, runs it, logs a warning when the result is not success, and continues;
a cancellation breaks the loop; any other exception reaching the loop is
logged and the loop continues.  Returns the processed requests in order
(paired with whether a failure was logged) and whether the loop exited by
cancellation. -/
def playbackLoopRun : List (String × Except PyError Bool) →
    List (String × Bool) × Bool
  | [] => ([], false)
  | (url, r) :: rest =>
    match play_youtube_result r with
    | Except.ok ok =>
      let next := playbackLoopRun rest
      ((url, !ok) :: next.1, next.2)
    | Except.error PyError.cancelled => ([], true)
    | Except.error PyError.exn =>
      let next := playbackLoopRun rest
      ((url, true) :: next.1, next.2)

/-- Concrete buffer fixture: one chunk of one loud frame. -/
def demoBuf : AudioBuffer := ⟨[[(1, 0)]], 10, 1⟩

/-- Concrete buffer fixture: one chunk of two zero frames. -/
def demoBuf2 : AudioBuffer := ⟨[[(0, 0), (0, 0)]], 5, 2⟩

/-- Concrete buffer fixture: capacity two holding one frame. -/
def demoBufSmall : AudioBuffer := ⟨[[(0, 0)]], 2, 1⟩

/-- Concrete mixer fixture: one music frame, one loud announcement frame,
volume 1. -/
def demoMix : MixState := ⟨⟨[[(1, 0)]], 10, 1⟩, ⟨[[(1, 0)]], 10, 1⟩, 1⟩

/-- Concrete mixer fixture with the volume multiplier set to zero. -/
def demoMixZero : MixState := ⟨AudioBuffer.mk_empty 10, ⟨[[(1, 0)]], 10, 1⟩, 0⟩

/-- Concrete session fixture: skip requested, one buffered frame. -/
def demoSession : SessionState := ⟨true, false, ⟨[[(0, 0)]], 10, 1⟩⟩

/-- Concrete control fixture: not paused, a track playing. -/
def demoControl : ControlState := ⟨false, some "track"⟩

/-- Concrete queue fixture: a success, a reported failure, and a raised
exception. -/
def demoRequests : List (String × Except PyError Bool) :=
  [("a", Except.ok true), ("b", Except.ok false), ("c", Except.error PyError.exn)]

/-! ### Helper lemmas about the ring buffer -/

lemma flatten_suffix_of_suffix {l m : List (List Frame)} (h : l <:+ m) :
    l.flatten <:+ m.flatten := by
  obtain ⟨t, rfl⟩ := h
  exact ⟨t.flatten, (List.flatten_append t l).symm⟩

lemma suffix_append_same {α : Type} {l m d : List α} (h : l <:+ m) :
    l ++ d <:+ m ++ d := by
  obtain ⟨t, rfl⟩ := h
  exact ⟨t, (List.append_assoc t l d).symm⟩


lemma dropOldestLoop_cons (dlen maxsize : Nat) (oldest : List Frame)
    (rest : List (List Frame)) (cur : Nat) :
    AudioBuffer.dropOldestLoop dlen maxsize (oldest :: rest) cur =
      if maxsize < cur + dlen then
        AudioBuffer.dropOldestLoop dlen maxsize rest (cur - oldest.length)
      else (oldest :: rest, cur) := rfl

lemma dropOldestLoop_spec (dlen maxsize : Nat) :
    ∀ (buf : List (List Frame)) (cur : Nat), cur = buf.flatten.length →
      (AudioBuffer.dropOldestLoop dlen maxsize buf cur).2
          = (AudioBuffer.dropOldestLoop dlen maxsize buf cur).1.flatten.length
      ∧ (AudioBuffer.dropOldestLoop dlen maxsize buf cur).1 <:+ buf
      ∧ ((AudioBuffer.dropOldestLoop dlen maxsize buf cur).1 = []
         ∨ (AudioBuffer.dropOldestLoop dlen maxsize buf cur).2 + dlen ≤ maxsize) := by
  intro buf
  induction buf with
  | nil =>
    intro cur h
    exact ⟨h, List.suffix_refl _, Or.inl rfl⟩
  | cons oldest rest ih =>
    intro cur h
    rw [List.flatten_cons, List.length_append] at h
    by_cases hc : maxsize < cur + dlen
    · rw [dropOldestLoop_cons, if_pos hc]
      have hrec := ih (cur - oldest.length) (by omega)
      exact ⟨hrec.1, hrec.2.1.trans (List.suffix_cons oldest rest), hrec.2.2⟩
    · rw [dropOldestLoop_cons, if_neg hc]
      refine ⟨?_, List.suffix_refl _, Or.inr (by omega)⟩
      rw [List.flatten_cons, List.length_append]
      exact h

lemma dropOldestLoop_empties (dlen maxsize : Nat) (hbig : maxsize < dlen) :
    ∀ (buf : List (List Frame)) (cur : Nat), cur = buf.flatten.length →
      AudioBuffer.dropOldestLoop dlen maxsize buf cur = ([], 0) := by
  intro buf
  induction buf with
  | nil =>
    intro cur h
    simp only [List.flatten_nil, List.length_nil] at h
    rw [h]
    rfl
  | cons oldest rest ih =>
    intro cur h
    rw [List.flatten_cons, List.length_append] at h
    rw [dropOldestLoop_cons, if_pos (by omega)]
    exact ih (cur - oldest.length) (by omega)

lemma write_spec (b : AudioBuffer) (data : List Frame) (h : b.WF) :
    (b.write data).WF
    ∧ (b.write data).maxsize = b.maxsize
    ∧ (b.write data).buffer.flatten <:+ b.buffer.flatten ++ data
    ∧ (b.current_size ≤ b.maxsize → data.length ≤ b.maxsize →
        (b.write data).current_size ≤ b.maxsize) := by
  by_cases h0 : data.length = 0
  · have hdata : data = [] := List.length_eq_zero.mp h0
    simp only [AudioBuffer.write, if_pos h0]
    exact ⟨h, trivial, by rw [hdata, List.append_nil], fun hs _ => hs⟩
  · by_cases hc : b.maxsize < b.current_size + data.length
    · have hd := dropOldestLoop_spec data.length b.maxsize b.buffer b.current_size h
      simp only [AudioBuffer.write, if_neg h0, if_pos hc]
      refine ⟨?_, trivial, ?_, ?_⟩
      · show _ + data.length = _
        rw [List.flatten_append, List.length_append, List.flatten_cons,
          List.flatten_nil, List.append_nil, hd.1]
      · show List.flatten (_ ++ [data]) <:+ _
        rw [List.flatten_append, List.flatten_cons, List.flatten_nil, List.append_nil]
        exact suffix_append_same (flatten_suffix_of_suffix hd.2.1)
      · intro _ hlen
        show _ + data.length ≤ _
        rcases hd.2.2 with he | hfits
        · rw [hd.1, he]
          simpa using hlen
        · omega
    · simp only [AudioBuffer.write, if_neg h0, if_neg hc]
      refine ⟨?_, trivial, ?_, ?_⟩
      · show _ + data.length = _
        rw [List.flatten_append, List.length_append, List.flatten_cons,
          List.flatten_nil, List.append_nil, h]
      · show List.flatten (_ ++ [data]) <:+ _
        rw [List.flatten_append, List.flatten_cons, List.flatten_nil, List.append_nil]
      · intro _ _
        show _ + data.length ≤ _
        omega

lemma readLoop_cons (remaining : Nat) (chunk : List Frame) (rest : List (List Frame)) :
    AudioBuffer.readLoop remaining (chunk :: rest) =
      if remaining = 0 then ([], chunk :: rest)
      else if chunk.length ≤ remaining then
        (chunk ++ (AudioBuffer.readLoop (remaining - chunk.length) rest).1,
         (AudioBuffer.readLoop (remaining - chunk.length) rest).2)
      else (chunk.take remaining, chunk.drop remaining :: rest) := rfl

lemma readLoop_spec (n : Nat) (buf : List (List Frame)) :
    (AudioBuffer.readLoop n buf).1 = buf.flatten.take n
    ∧ (AudioBuffer.readLoop n buf).2.flatten = buf.flatten.drop n := by
  induction buf generalizing n with
  | nil => simp [AudioBuffer.readLoop]
  | cons chunk rest ih =>
    rw [readLoop_cons]
    by_cases h0 : n = 0
    · subst h0
      simp
    · by_cases hle : chunk.length ≤ n
      · rw [if_neg h0, if_pos hle]
        obtain ⟨ih1, ih2⟩ := ih (n - chunk.length)
        constructor
        · show chunk ++ _ = _
          rw [ih1, List.flatten_cons, List.take_append_eq_append_take,
            List.take_of_length_le hle]
        · show List.flatten _ = _
          rw [ih2, List.flatten_cons, List.drop_append_eq_append_drop,
            List.drop_of_length_le hle, List.nil_append]
      · rw [if_neg h0, if_neg hle]
        have hlt : n ≤ chunk.length := le_of_not_le hle
        constructor
        · show chunk.take n = _
          rw [List.flatten_cons, List.take_append_of_le_length hlt]
        · show List.flatten (chunk.drop n :: rest) = _
          rw [List.flatten_cons, List.flatten_cons, List.drop_append_of_le_length hlt]

lemma read_spec (b : AudioBuffer) (n : Nat) (h : b.WF) :
    (b.read n).1 = b.buffer.flatten.take n
        ++ List.replicate (n - min n b.current_size) silence
    ∧ (b.read n).1.length = n
    ∧ (b.read n).2.buffer.flatten = b.buffer.flatten.drop n
    ∧ (b.read n).2.current_size = b.current_size - min n b.current_size
    ∧ (b.read n).2.WF
    ∧ (b.read n).2.maxsize = b.maxsize := by
  unfold AudioBuffer.read
  by_cases hg : b.buffer = [] ∨ b.current_size = 0
  · have hflat : b.buffer.flatten = [] := by
      rcases hg with hb | hz
      · rw [hb, List.flatten_nil]
      · rw [AudioBuffer.WF] at h
        exact List.length_eq_zero.mp (hz ▸ h.symm)
    have hz : b.current_size = 0 := by
      rw [AudioBuffer.WF, hflat] at h
      simpa using h
    rw [if_pos hg]
    refine ⟨?_, ?_, ?_, ?_, h, rfl⟩
    · rw [hflat, hz]
      simp
    · simp
    · rw [hflat]
      simp
    · rw [hz]
      simp
  · rw [if_neg hg]
    have hs := readLoop_spec n b.buffer
    have hlen : (AudioBuffer.readLoop n b.buffer).1.length = min n b.current_size := by
      rw [hs.1, List.length_take, h]
    refine ⟨?_, ?_, ?_, ?_, ?_, rfl⟩
    · show _ ++ List.replicate (n - _) silence = _
      rw [hlen, hs.1]
    · show (_ ++ List.replicate (n - _) silence).length = n
      rw [List.length_append, List.length_replicate, hlen]
      omega
    · exact hs.2
    · show b.current_size - _ = _
      rw [hlen]
    · show _ - _ = _
      rw [AudioBuffer.WF] at h
      rw [hlen, hs.2, List.length_drop]
      omega

lemma read_length (b : AudioBuffer) (n : Nat) : (b.read n).1.length = n := by
  unfold AudioBuffer.read
  by_cases hg : b.buffer = [] ∨ b.current_size = 0
  · rw [if_pos hg]
    simp
  · rw [if_neg hg]
    have h1 : (AudioBuffer.readLoop n b.buffer).1.length ≤ n := by
      rw [(readLoop_spec n b.buffer).1, List.length_take]
      omega
    show (_ ++ List.replicate (n - _) silence).length = n
    rw [List.length_append, List.length_replicate]
    omega

lemma writeSeq_cons (b : AudioBuffer) (w : List Frame) (p : List (List Frame)) :
    AudioBuffer.writeSeq b (w :: p) = AudioBuffer.writeSeq (b.write w) p := rfl

lemma writeSeq_invariant (cap : Nat) :
    ∀ (p : List (List Frame)) (b : AudioBuffer) (acc : List Frame),
      b.WF → b.maxsize = cap → b.current_size ≤ cap →
      b.buffer.flatten <:+ acc →
      (∀ w ∈ p, w.length ≤ cap) →
      (b.writeSeq p).WF ∧ (b.writeSeq p).maxsize = cap
      ∧ (b.writeSeq p).current_size ≤ cap
      ∧ (b.writeSeq p).buffer.flatten <:+ acc ++ p.flatten := by
  intro p
  induction p with
  | nil =>
    intro b acc h1 h2 h3 h4 _
    refine ⟨h1, h2, h3, ?_⟩
    rw [List.flatten_nil, List.append_nil]
    exact h4
  | cons w p ih =>
    intro b acc h1 h2 h3 h4 hall
    rw [writeSeq_cons]
    have hw := write_spec b w h1
    have hstep := ih (b.write w) (acc ++ w) hw.1 (hw.2.1.trans h2)
      (by
        have := hw.2.2.2 (h2 ▸ h3) (h2 ▸ hall w (List.mem_cons_self w p))
        omega)
      (hw.2.2.1.trans (suffix_append_same h4))
      (fun x hx => hall x (List.mem_cons_of_mem w hx))
    refine ⟨hstep.1, hstep.2.1, hstep.2.2.1, ?_⟩
    have := hstep.2.2.2
    rwa [List.flatten_cons, ← List.append_assoc]

/-! ### Helper lemmas about the mixer arithmetic -/

lemma scaleF_scaleF (a v : ℚ) (f : Frame) : scaleF a (scaleF v f) = scaleF (v * a) f := by
  simp only [scaleF, Prod.mk.injEq]
  constructor <;> ring

lemma clipS_bounds (x : ℚ) : -(19/20 : ℚ) ≤ clipS x ∧ clipS x ≤ 19/20 := by
  unfold clipS
  constructor
  · exact le_min (le_max_right x _) (by norm_num)
  · exact min_le_right _ _

lemma loudF_iff (f : Frame) :
    loudF f = true ↔ ((1/1000 : ℚ) < |f.1| ∨ (1/1000 : ℚ) < |f.2|) := by
  unfold loudF
  simp

lemma zipWith_addF_zeroscale (l : List Frame) :
    ∀ (m : List Frame), l.length = m.length →
      List.zipWith addF (l.map (scaleF 0)) m = m := by
  induction l with
  | nil =>
    intro m h
    cases m with
    | nil => rfl
    | cons b m => simp at h
  | cons a l ih =>
    intro m h
    cases m with
    | nil => simp at h
    | cons b m =>
      simp only [List.map_cons, List.zipWith_cons_cons, ih m (by simpa using h)]
      unfold scaleF addF
      simp

lemma readLoop_zero (buf : List (List Frame)) :
    AudioBuffer.readLoop 0 buf = ([], buf) := by
  cases buf with
  | nil => rfl
  | cons c rest => rw [readLoop_cons, if_pos rfl]

lemma read_zero (b : AudioBuffer) : b.read 0 = ([], b) := by
  unfold AudioBuffer.read
  by_cases hg : b.buffer = [] ∨ b.current_size = 0
  · rw [if_pos hg]
    rfl
  · rw [if_neg hg, readLoop_zero]
    rfl

lemma audio_callback_fst (s : MixState) (frames : Nat) :
    (audio_callback s frames).1 =
      (List.zipWith addF
        (if (s.tts_buffer.read frames).1.any loudF then
          ((s.music_buffer.read frames).1.map (scaleF s.volume)).map (scaleF (1/5))
        else (s.music_buffer.read frames).1.map (scaleF s.volume))
        (s.tts_buffer.read frames).1).map clipF := rfl

/-! ### Claim theorems -/

/-- C1: for every sequence of writes into a fresh buffer of capacity `cap`
whose total exceeds `cap`, with every single write of size at most `cap`,
after each write (each prefix of the sequence) the occupancy never exceeds
`cap`, the stored frames are exactly a suffix of everything written so far
(the most recently written frames, in order — oldest data evicted first),
and the occupancy equals the number of stored frames. -/
theorem write_overflow_evicts_oldest_keeps_bound :
    ∀ (cap : Nat) (ws : List (List Frame)),
      (∀ w ∈ ws, w.length ≤ cap) →
      cap < (ws.map List.length).sum →
      ∀ (p q : List (List Frame)), ws = p ++ q →
        ((AudioBuffer.mk_empty cap).writeSeq p).current_size ≤ cap
        ∧ ((AudioBuffer.mk_empty cap).writeSeq p).buffer.flatten <:+ p.flatten
        ∧ ((AudioBuffer.mk_empty cap).writeSeq p).current_size
            = ((AudioBuffer.mk_empty cap).writeSeq p).buffer.flatten.length := by
  intro cap ws hall _ p q hpq
  have hp : ∀ w ∈ p, w.length ≤ cap := fun w hw =>
    hall w (hpq ▸ List.mem_append_left q hw)
  have hinv := writeSeq_invariant cap p (AudioBuffer.mk_empty cap) [] rfl rfl
    (Nat.zero_le cap) (List.suffix_refl []) hp
  exact ⟨hinv.2.2.1, by simpa using hinv.2.2.2, hinv.1⟩

/-- C1 witness: capacity 2, writes of sizes 2 and 1 (total 3 exceeds the
capacity), checked after the full sequence. -/
theorem write_overflow_evicts_oldest_keeps_bound_witness :
    (∀ w ∈ ([[((0:ℚ), (0:ℚ)), (0, 0)], [(0, 0)]] : List (List Frame)), w.length ≤ 2)
    ∧ 2 < ((([[((0:ℚ), (0:ℚ)), (0, 0)], [(0, 0)]] : List (List Frame)).map List.length).sum)
    ∧ (((AudioBuffer.mk_empty 2).writeSeq
          [[((0:ℚ), (0:ℚ)), (0, 0)], [(0, 0)]]).current_size ≤ 2
       ∧ ((AudioBuffer.mk_empty 2).writeSeq
            [[((0:ℚ), (0:ℚ)), (0, 0)], [(0, 0)]]).buffer.flatten
          <:+ ([[((0:ℚ), (0:ℚ)), (0, 0)], [(0, 0)]] : List (List Frame)).flatten
       ∧ ((AudioBuffer.mk_empty 2).writeSeq
            [[((0:ℚ), (0:ℚ)), (0, 0)], [(0, 0)]]).current_size
          = ((AudioBuffer.mk_empty 2).writeSeq
              [[((0:ℚ), (0:ℚ)), (0, 0)], [(0, 0)]]).buffer.flatten.length) :=
  ⟨by decide, by decide,
    write_overflow_evicts_oldest_keeps_bound 2 _ (by decide) (by decide) _ [] rfl⟩

/-- C2: a read of `n` frames from a buffer holding fewer than `n` frames
returns exactly `n` frames — the buffered data followed by zero-valued
padding, never a short read; and when `n` falls strictly inside the front
chunk, that chunk is split and exactly `n` frames are consumed. -/
theorem read_pads_missing_tail_with_silence :
    (∀ (b : AudioBuffer) (n : Nat), b.WF → b.current_size < n →
      (b.read n).1.length = n
      ∧ (b.read n).1 = b.buffer.flatten
          ++ List.replicate (n - b.current_size) silence)
    ∧ (∀ (b : AudioBuffer) (n : Nat) (chunk : List Frame)
        (rest : List (List Frame)),
        b.WF → b.buffer = chunk :: rest → 0 < n → n < chunk.length →
        (b.read n).1 = chunk.take n
        ∧ (b.read n).2.buffer = chunk.drop n :: rest
        ∧ (b.read n).2.current_size = b.current_size - n) := by
  constructor
  · intro b n h hlt
    have h' : b.current_size = b.buffer.flatten.length := h
    have hs := read_spec b n h
    refine ⟨hs.2.1, ?_⟩
    rw [hs.1, List.take_of_length_le (by omega), min_eq_right (le_of_lt hlt)]
  · intro b n chunk rest h hb h0 hlt
    have h' : b.current_size = b.buffer.flatten.length := h
    rw [hb, List.flatten_cons, List.length_append] at h'
    have hg : ¬(b.buffer = [] ∨ b.current_size = 0) := by
      rw [hb]
      rintro (hh | hh)
      · exact List.cons_ne_nil chunk rest hh
      · omega
    have hmin : min n chunk.length = n := min_eq_left (le_of_lt hlt)
    unfold AudioBuffer.read
    rw [if_neg hg, hb, readLoop_cons, if_neg (by omega), if_neg (not_le.mpr hlt)]
    refine ⟨?_, rfl, ?_⟩
    · show chunk.take n ++ List.replicate (n - (chunk.take n).length) silence = _
      rw [List.length_take, hmin, Nat.sub_self]
      simp
    · show b.current_size - (chunk.take n).length = _
      rw [List.length_take, hmin]

/-- C2 witness: a one-frame buffer read with `n = 3` (padding), and a
two-frame front chunk split by a read of one frame. -/
theorem read_pads_missing_tail_with_silence_witness :
    demoBuf.WF ∧ demoBuf.current_size < 3
    ∧ ((demoBuf.read 3).1.length = 3
       ∧ (demoBuf.read 3).1 = demoBuf.buffer.flatten
           ++ List.replicate (3 - demoBuf.current_size) silence)
    ∧ demoBuf2.WF ∧ demoBuf2.buffer = [[(0, 0), (0, 0)]]
    ∧ ((demoBuf2.read 1).1 = ([((0:ℚ), (0:ℚ)), (0, 0)] : List Frame).take 1
       ∧ (demoBuf2.read 1).2.buffer
          = ([((0:ℚ), (0:ℚ)), (0, 0)] : List Frame).drop 1 :: []
       ∧ (demoBuf2.read 1).2.current_size = demoBuf2.current_size - 1) :=
  ⟨by decide, by decide,
    read_pads_missing_tail_with_silence.1 demoBuf 3 (by decide) (by decide),
    by decide, rfl,
    read_pads_missing_tail_with_silence.2 demoBuf2 1 _ [] (by decide) rfl
      (by decide) (by decide)⟩

/-- C6: a single write whose block is strictly larger than the capacity is
accepted in full: eviction empties the buffer, the block is stored whole,
and the occupancy equals the block size, exceeding the capacity. -/
theorem single_oversized_write_accepted :
    ∀ (b : AudioBuffer) (data : List Frame), b.WF → b.maxsize < data.length →
      (b.write data).buffer = [data]
      ∧ (b.write data).current_size = data.length
      ∧ b.maxsize < (b.write data).current_size := by
  intro b data h hbig
  have h0 : data.length ≠ 0 := by omega
  have hc : b.maxsize < b.current_size + data.length := by omega
  have hd := dropOldestLoop_empties data.length b.maxsize hbig b.buffer
    b.current_size h
  simp only [AudioBuffer.write, if_neg h0, if_pos hc, hd]
  refine ⟨rfl, Nat.zero_add _, ?_⟩
  rw [Nat.zero_add]
  exact hbig

/-- C6 witness: capacity 2 holding one frame, written with a three-frame
block. -/
theorem single_oversized_write_accepted_witness :
    demoBufSmall.WF ∧ demoBufSmall.maxsize < 3
    ∧ ((demoBufSmall.write [(0, 0), (0, 0), (0, 0)]).buffer
        = [[((0:ℚ), (0:ℚ)), (0, 0), (0, 0)]]
       ∧ (demoBufSmall.write [(0, 0), (0, 0), (0, 0)]).current_size = 3
       ∧ demoBufSmall.maxsize
          < (demoBufSmall.write [(0, 0), (0, 0), (0, 0)]).current_size) :=
  ⟨by decide, by decide,
    single_oversized_write_accepted demoBufSmall [(0, 0), (0, 0), (0, 0)]
      (by decide) (by decide)⟩

/-- C10: a read of `n` frames removes exactly `min n occupancy` frames from
the front and leaves the remaining frames unchanged and in order; in
particular a read of zero frames returns an empty block and leaves the
buffer unchanged, and a read on an empty buffer leaves it unchanged. -/
theorem read_consumes_min_and_preserves_rest :
    ∀ (b : AudioBuffer) (n : Nat), b.WF →
      (b.read n).2.current_size = b.current_size - min n b.current_size
      ∧ (b.read n).2.buffer.flatten = b.buffer.flatten.drop n
      ∧ (b.read n).2.WF
      ∧ (b.read 0).1 = []
      ∧ (b.read 0).2 = b
      ∧ (b.buffer = [] → (b.read n).2 = b) := by
  intro b n h
  have hs := read_spec b n h
  refine ⟨hs.2.2.2.1, hs.2.2.1, hs.2.2.2.2.1, ?_, ?_, ?_⟩
  · rw [read_zero]
  · rw [read_zero]
  · intro hb
    unfold AudioBuffer.read
    rw [if_pos (Or.inl hb)]

/-- C10 witness: a two-frame buffer read with `n = 1`. -/
theorem read_consumes_min_and_preserves_rest_witness :
    demoBuf2.WF
    ∧ ((demoBuf2.read 1).2.current_size
          = demoBuf2.current_size - min 1 demoBuf2.current_size
       ∧ (demoBuf2.read 1).2.buffer.flatten = demoBuf2.buffer.flatten.drop 1
       ∧ (demoBuf2.read 1).2.WF
       ∧ (demoBuf2.read 0).1 = []
       ∧ (demoBuf2.read 0).2 = demoBuf2
       ∧ (demoBuf2.buffer = [] → (demoBuf2.read 1).2 = demoBuf2)) :=
  ⟨by decide, read_consumes_min_and_preserves_rest demoBuf2 1 (by decide)⟩

/-- C3: ducking is one per-block decision of the mixer invocation: when any
sample of the announcement block read for the invocation exceeds `0.001` in
absolute value, every media sample is additionally scaled by `0.2 = 1/5`
(on top of the volume factor) before summing and clipping; when no such
sample exists, the media block is scaled by the volume factor alone. -/
theorem ducking_is_per_block :
    ∀ (s : MixState) (frames : Nat),
      ((∃ f ∈ (s.tts_buffer.read frames).1,
          (1/1000 : ℚ) < |f.1| ∨ (1/1000 : ℚ) < |f.2|) →
        (audio_callback s frames).1 =
          List.zipWith (fun m t => clipF (addF (scaleF (s.volume * (1/5)) m) t))
            (s.music_buffer.read frames).1 (s.tts_buffer.read frames).1)
      ∧ ((∀ f ∈ (s.tts_buffer.read frames).1,
          ¬((1/1000 : ℚ) < |f.1| ∨ (1/1000 : ℚ) < |f.2|)) →
        (audio_callback s frames).1 =
          List.zipWith (fun m t => clipF (addF (scaleF s.volume m) t))
            (s.music_buffer.read frames).1 (s.tts_buffer.read frames).1) := by
  intro s frames
  constructor
  · intro hex
    have hact : (s.tts_buffer.read frames).1.any loudF = true := by
      rw [List.any_eq_true]
      obtain ⟨f, hf, hp⟩ := hex
      exact ⟨f, hf, (loudF_iff f).mpr hp⟩
    rw [audio_callback_fst, if_pos hact, List.map_map]
    have hcomp : scaleF (1/5) ∘ scaleF s.volume = scaleF (s.volume * (1/5)) := by
      funext f
      exact scaleF_scaleF (1/5) s.volume f
    rw [hcomp, List.map_zipWith, List.zipWith_map_left]
  · intro hall
    have hact : (s.tts_buffer.read frames).1.any loudF = false := by
      rw [List.any_eq_false]
      intro f hf
      rw [loudF_iff f]
      exact hall f hf
    rw [audio_callback_fst, if_neg (by rw [hact]; exact Bool.false_ne_true),
      List.map_zipWith, List.zipWith_map_left]

/-- C3 witness: one loud announcement frame at volume 1. -/
theorem ducking_is_per_block_witness :
    (∃ f ∈ (demoMix.tts_buffer.read 1).1,
      (1/1000 : ℚ) < |f.1| ∨ (1/1000 : ℚ) < |f.2|)
    ∧ (audio_callback demoMix 1).1 =
        List.zipWith (fun m t => clipF (addF (scaleF (demoMix.volume * (1/5)) m) t))
          (demoMix.music_buffer.read 1).1 (demoMix.tts_buffer.read 1).1 := by
  have hmem : ((1 : ℚ), (0 : ℚ)) ∈ (demoMix.tts_buffer.read 1).1 := by
    simp [demoMix, AudioBuffer.read, AudioBuffer.readLoop]
  have hex : ∃ f ∈ (demoMix.tts_buffer.read 1).1,
      (1/1000 : ℚ) < |f.1| ∨ (1/1000 : ℚ) < |f.2| :=
    ⟨(1, 0), hmem, Or.inl (by rw [abs_one]; norm_num)⟩
  exact ⟨hex, (ducking_is_per_block demoMix 1).1 hex⟩

/-- C4: every sample the mixer emits lies in `[-0.95, 0.95]`, whatever the
buffer contents and the volume setting; the clamp is the last step of
`audio_callback`, after volume scaling, ducking and summation. -/
theorem mixer_output_clipped :
    ∀ (s : MixState) (frames : Nat) (f : Frame),
      f ∈ (audio_callback s frames).1 →
      -(19/20 : ℚ) ≤ f.1 ∧ f.1 ≤ 19/20 ∧ -(19/20 : ℚ) ≤ f.2 ∧ f.2 ≤ 19/20 := by
  intro s frames f hf
  rw [audio_callback_fst, List.mem_map] at hf
  obtain ⟨g, -, rfl⟩ := hf
  exact ⟨(clipS_bounds g.1).1, (clipS_bounds g.1).2,
    (clipS_bounds g.2).1, (clipS_bounds g.2).2⟩

/-- C4 witness: the mix of a full-scale music frame and a loud announcement
frame overshoots and is clamped into the safety range. -/
theorem mixer_output_clipped_witness :
    ((19/20 : ℚ), (0 : ℚ)) ∈ (audio_callback demoMix 1).1
    ∧ (-(19/20 : ℚ) ≤ ((19/20 : ℚ), (0 : ℚ)).1 ∧ ((19/20 : ℚ), (0 : ℚ)).1 ≤ 19/20
       ∧ -(19/20 : ℚ) ≤ ((19/20 : ℚ), (0 : ℚ)).2 ∧ ((19/20 : ℚ), (0 : ℚ)).2 ≤ 19/20) := by
  have hmem : ((19/20 : ℚ), (0 : ℚ)) ∈ (audio_callback demoMix 1).1 := by
    have hout : (audio_callback demoMix 1).1 = [((19/20 : ℚ), (0 : ℚ))] := by
      rw [audio_callback_fst]
      norm_num [demoMix, AudioBuffer.read, AudioBuffer.readLoop, loudF,
        scaleF, addF, clipF, clipS, silence, max_def, min_def]
    rw [hout]
    exact List.mem_singleton.mpr rfl
  exact ⟨hmem, mixer_output_clipped demoMix 1 ((19/20 : ℚ), (0 : ℚ)) hmem⟩

/-- C7: the `/volume` command sets the media scale factor to `level / 100`
for every integer level in `0..200` (150 yields `3/2`), rejects every level
outside `0..200` leaving the multiplier unchanged, and a multiplier of zero
silences the media path entirely: the mixer output is just the clipped
announcement block. -/
theorem volume_command_scales_media :
    ∀ (level : Int) (v : ℚ),
      (0 ≤ level → level ≤ 200 →
        volumeCommand level v = ((level : ℚ) / 100, true))
      ∧ ((level < 0 ∨ 200 < level) → volumeCommand level v = (v, false))
      ∧ volumeCommand 150 v = (3/2, true)
      ∧ (∀ (s : MixState) (frames : Nat), s.volume = 0 →
          (audio_callback s frames).1 = ((s.tts_buffer.read frames).1).map clipF) := by
  intro level v
  refine ⟨?_, ?_, ?_, ?_⟩
  · intro h1 h2
    unfold volumeCommand
    rw [if_neg (by omega)]
  · intro h
    unfold volumeCommand
    rw [if_pos h]
  · unfold volumeCommand
    rw [if_neg (by omega)]
    norm_num [Prod.ext_iff]
  · intro s frames hv
    have hlen : (s.music_buffer.read frames).1.length
        = (s.tts_buffer.read frames).1.length := by
      rw [read_length, read_length]
    rw [audio_callback_fst, hv]
    by_cases hact : (s.tts_buffer.read frames).1.any loudF = true
    · rw [if_pos hact, List.map_map]
      have hcomp : scaleF (1/5) ∘ scaleF 0 = scaleF 0 := by
        funext f
        rw [Function.comp_apply, scaleF_scaleF, zero_mul]
      rw [hcomp, zipWith_addF_zeroscale _ _ hlen]
    · rw [if_neg hact, zipWith_addF_zeroscale _ _ hlen]

/-- C7 witness: level 150 at current volume 1, and the zero-volume mixer
state. -/
theorem volume_command_scales_media_witness :
    (0 : Int) ≤ 150 ∧ (150 : Int) ≤ 200
    ∧ volumeCommand 150 1 = (((150 : Int) : ℚ) / 100, true)
    ∧ volumeCommand 150 1 = (3/2, true)
    ∧ demoMixZero.volume = 0
    ∧ (audio_callback demoMixZero 1).1
        = ((demoMixZero.tts_buffer.read 1).1).map clipF :=
  ⟨by decide, by decide,
    (volume_command_scales_media 150 1).1 (by decide) (by decide),
    (volume_command_scales_media 150 1).2.2.1,
    rfl,
    (volume_command_scales_media 150 1).2.2.2 demoMixZero 1 rfl⟩

/-- C5: when the skip flag is set at the top of the streaming loop of
`play_youtube`, the iteration performs the teardown in order — cancel the
pipe task, terminate the decode process, terminate the fetch process, clear
the music buffer — after which the buffer occupancy is zero, no frames
remain stored, the skip flag is reset and the session ends as skipped. -/
theorem skip_tears_down_and_clears :
    ∀ (s : SessionState) (chunk : List Frame),
      s.skip = true → 0 < s.music_buffer.available_frames →
      (playLoopBody s chunk).1 =
        [TeardownEvent.cancelPipeTask, TeardownEvent.terminateFfmpeg,
         TeardownEvent.terminateYtdlp, TeardownEvent.clearMusicBuffer]
      ∧ (playLoopBody s chunk).2.2 = LoopOutcome.skipped
      ∧ (playLoopBody s chunk).2.1.music_buffer.available_frames = 0
      ∧ (playLoopBody s chunk).2.1.music_buffer.buffer = []
      ∧ (playLoopBody s chunk).2.1.skip = false := by
  intro s chunk hs _
  unfold playLoopBody
  rw [if_pos hs]
  exact ⟨rfl, rfl, rfl, rfl, rfl⟩

/-- C5 witness: a session with one buffered frame and the skip flag set. -/
theorem skip_tears_down_and_clears_witness :
    demoSession.skip = true ∧ 0 < demoSession.music_buffer.available_frames
    ∧ ((playLoopBody demoSession []).1 =
        [TeardownEvent.cancelPipeTask, TeardownEvent.terminateFfmpeg,
         TeardownEvent.terminateYtdlp, TeardownEvent.clearMusicBuffer]
       ∧ (playLoopBody demoSession []).2.2 = LoopOutcome.skipped
       ∧ (playLoopBody demoSession []).2.1.music_buffer.available_frames = 0
       ∧ (playLoopBody demoSession []).2.1.music_buffer.buffer = []
       ∧ (playLoopBody demoSession []).2.1.skip = false) :=
  ⟨rfl, by decide, skip_tears_down_and_clears demoSession [] rfl (by decide)⟩

/-- C9: `/pause` is idempotent while a track is playing — a second pause
leaves exactly the state of a single pause, with the pause flag set — and
`/resume` while not paused leaves the engine state unchanged. -/
theorem pause_idempotent_resume_noop :
    (∀ s : ControlState, truthyTrack s.current_track = true →
      (pauseCommand (pauseCommand s).1).1 = (pauseCommand s).1
      ∧ ((pauseCommand s).1).paused = true)
    ∧ (∀ s : ControlState, s.paused = false → (resumeCommand s).1 = s) := by
  constructor
  · intro s ht
    unfold pauseCommand
    rw [if_pos ht]
    rw [if_pos ht]  -- the track is unchanged by pausing
    exact ⟨rfl, rfl⟩
  · intro s hp
    unfold resumeCommand
    rw [if_neg (by rw [hp]; exact Bool.false_ne_true)]

/-- C9 witness: a playing, unpaused control state. -/
theorem pause_idempotent_resume_noop_witness :
    truthyTrack demoControl.current_track = true
    ∧ ((pauseCommand (pauseCommand demoControl).1).1 = (pauseCommand demoControl).1
       ∧ ((pauseCommand demoControl).1).paused = true)
    ∧ demoControl.paused = false
    ∧ (resumeCommand demoControl).1 = demoControl :=
  ⟨rfl, pause_idempotent_resume_noop.1 demoControl rfl, rfl,
    pause_idempotent_resume_noop.2 demoControl rfl⟩

/-- C8: over any queue of requests none of which raises a cancellation, the
playback loop attempts every request in order — a failed track (a `False`
result or a raised exception) is logged and the loop proceeds to the next
request — and the loop never exits because of a failed track. -/
theorem failed_track_logged_loop_continues :
    ∀ (reqs : List (String × Except PyError Bool)),
      (∀ p ∈ reqs, p.2 ≠ Except.error PyError.cancelled) →
      (playbackLoopRun reqs).1.map Prod.fst = reqs.map Prod.fst
      ∧ (playbackLoopRun reqs).2 = false
      ∧ (∀ p ∈ reqs,
          (p.2 = Except.ok false ∨ p.2 = Except.error PyError.exn) →
          (p.1, true) ∈ (playbackLoopRun reqs).1) := by
  intro reqs
  induction reqs with
  | nil =>
    intro _
    exact ⟨rfl, rfl, by intro p hp; cases hp⟩
  | cons q rest ih =>
    intro hnc
    obtain ⟨url, r⟩ := q
    have hrest := ih (fun p hp => hnc p (List.mem_cons_of_mem _ hp))
    match r with
    | Except.ok true =>
      refine ⟨?_, hrest.2.1, ?_⟩
      · show url :: _ = url :: _
        rw [hrest.1]
      · intro p hp hfail
        rcases List.mem_cons.mp hp with hq | hq
        · rw [hq] at hfail
          rcases hfail with hh | hh <;> cases hh
        · exact List.mem_cons_of_mem _ (hrest.2.2 p hq hfail)
    | Except.ok false =>
      refine ⟨?_, hrest.2.1, ?_⟩
      · show url :: _ = url :: _
        rw [hrest.1]
      · intro p hp hfail
        rcases List.mem_cons.mp hp with hq | hq
        · rw [hq]
          exact List.mem_cons_self _ _
        · exact List.mem_cons_of_mem _ (hrest.2.2 p hq hfail)
    | Except.error PyError.cancelled =>
      exact absurd rfl (hnc (url, Except.error PyError.cancelled)
        (List.mem_cons_self _ _))
    | Except.error PyError.exn =>
      refine ⟨?_, hrest.2.1, ?_⟩
      · show url :: _ = url :: _
        rw [hrest.1]
      · intro p hp hfail
        rcases List.mem_cons.mp hp with hq | hq
        · rw [hq]
          exact List.mem_cons_self _ _
        · exact List.mem_cons_of_mem _ (hrest.2.2 p hq hfail)

/-- C8 witness: a queue of a success, a reported failure and a raised
exception, fully drained with both failures logged. -/
theorem failed_track_logged_loop_continues_witness :
    (∀ p ∈ demoRequests, p.2 ≠ Except.error PyError.cancelled)
    ∧ ((playbackLoopRun demoRequests).1.map Prod.fst = demoRequests.map Prod.fst
       ∧ (playbackLoopRun demoRequests).2 = false
       ∧ (∀ p ∈ demoRequests,
            (p.2 = Except.ok false ∨ p.2 = Except.error PyError.exn) →
            (p.1, true) ∈ (playbackLoopRun demoRequests).1)) :=
  ⟨by decide, failed_track_logged_loop_continues demoRequests (by decide)⟩
